import Mathlib

/-!
Shallow embedding of `pkg/leader/leader.go` from mhrivnak/leaderelection.

The Go code interacts with the Kubernetes API (reads a namespace file,
builds a clientset, reads its own Pod, then gets/creates a ConfigMap in a
retry loop).  We embed each external interaction as an oracle value fed to
the pure Lean function, and we record every store operation the code issues
as an `Event` in an output trace.  The create loop is unbounded in Go; we
feed it a finite list of create-call results, and an exhausted list with no
terminal outcome is reported as `none` ("still looping").
-/

/-- Go errors are compared by identity in `TryBecome` (`err == ErrNoNS`);
`ErrNoNS` is the distinguished package-level value, every other error is
modelled by its message. -/
inductive GoError where
  | errNoNS
  | other (msg : String)
deriving DecidableEq

/-- `metav1.OwnerReference` as built and inspected by leader.go. -/
structure OwnerReference where
  apiVersion : String
  kind : String
  name : String
  uid : String
deriving DecidableEq

/-- The fields of `metav1.ObjectMeta` that leader.go uses. -/
structure ObjectMeta where
  name : String
  nspace : String
  ownerReferences : List OwnerReference
deriving DecidableEq

/-- `corev1.ConfigMap`: TypeMeta (APIVersion, Kind) plus ObjectMeta. -/
structure ConfigMap where
  apiVersion : String
  kind : String
  metadata : ObjectMeta
deriving DecidableEq

/-- The fields of the caller's own Pod that `myOwnerRef` reads. -/
structure Pod where
  name : String
  uid : String
deriving DecidableEq

/-- Outcome of `ioutil.ReadFile` on the service-account namespace file, as
classified by `myNS`: success with contents, `os.IsNotExist`, or any other
read error (an OS error, never the package's own `ErrNoNS` value). -/
inductive FileReadResult where
  | ok (contents : String)
  | notExist
  | otherError (msg : String)
deriving DecidableEq

/-- Outcome of `ConfigMaps(ns).Get`, as classified by `Become`:
`err == nil` with the found object, `apierrors.IsNotFound(err)`, or any
other error (an API error, never the package's own `ErrNoNS` value). -/
inductive GetResult where
  | found (cm : ConfigMap)
  | notFound
  | otherError (msg : String)
deriving DecidableEq

/-- Outcome of one `ConfigMaps(ns).Create` call, as classified by `Become`:
`err == nil`, `apierrors.IsAlreadyExists(err)`, or any other error. -/
inductive CreateResult where
  | created
  | alreadyExists
  | otherError (msg : String)
deriving DecidableEq

/-- An operation the code performs against the API server, plus the sleeps
of the retry loop.  `update` and `delete` are operations the store client
offers; they appear here so that we can state that leader.go never issues
them. -/
inductive Event where
  | getPod (nspace hostname : String)
  | getCM (nspace name : String)
  | create (cm : ConfigMap)
  | update (cm : ConfigMap)
  | delete (nspace name : String)
  | sleep (seconds : Nat)
deriving DecidableEq

def Event.isCreate : Event → Bool
  | .create _ => true
  | _ => false

def Event.isUpdate : Event → Bool
  | .update _ => true
  | _ => false

def Event.isDelete : Event → Bool
  | .delete _ _ => true
  | _ => false

def Event.isSleep : Event → Bool
  | .sleep _ => true
  | _ => false

def Event.isGetCM : Event → Bool
  | .getCM _ _ => true
  | _ => false

/-- The store operations of a trace: every event except the sleeps. -/
def storeOps (evs : List Event) : List Event :=
  evs.filter (fun e => ! e.isSleep)

/-- The ConfigMaps passed to create calls in a trace. -/
def createdRecords (evs : List Event) : List ConfigMap :=
  evs.filterMap fun e =>
    match e with
    | .create cm => some cm
    | _ => none

instance instDecEqExcept {ε α : Type} [DecidableEq ε] [DecidableEq α] :
    DecidableEq (Except ε α) := fun x y =>
  match x, y with
  | .ok a, .ok b =>
    if h : a = b then isTrue (h ▸ rfl) else isFalse (fun hh => h (Except.ok.inj hh))
  | .error a, .error b =>
    if h : a = b then isTrue (h ▸ rfl) else isFalse (fun hh => h (Except.error.inj hh))
  | .ok _, .error _ => isFalse (fun hh => Except.noConfusion hh)
  | .error _, .ok _ => isFalse (fun hh => Except.noConfusion hh)

/-- The oracles for one run of `Become`: the namespace file read, the
clientset construction, `os.Hostname`, the Pod get inside `myOwnerRef`,
the ConfigMap get, and the successive results of the create calls. -/
structure BecomeEnv where
  fileRead : FileReadResult
  clientset : Except String Unit
  hostnameR : Except String String
  podGet : Except String Pod
  getR : GetResult
  creates : List CreateResult
deriving DecidableEq

/-- `strings.TrimSpace`: drop whitespace characters from both ends of the
string. -/
def trimSpace (s : String) : String :=
  String.mk (((s.data.dropWhile Char.isWhitespace).reverse.dropWhile
    Char.isWhitespace).reverse)

/-- `myNS`: read the service-account namespace file; `os.IsNotExist` maps to
the distinguished `ErrNoNS`, any other error is propagated unchanged, and on
success the contents are returned with surrounding whitespace trimmed
(`strings.TrimSpace`). -/
def myNS : FileReadResult → Except GoError String
  | .ok contents => .ok (trimSpace contents)
  | .notExist => .error .errNoNS
  | .otherError msg => .error (.other msg)

/-- The OwnerReference that `myOwnerRef` builds from the caller's Pod. -/
def podOwnerRef (pod : Pod) : OwnerReference :=
  { apiVersion := "v1", kind := "Pod", name := pod.name, uid := pod.uid }

/-- `myOwnerRef`: resolve the hostname, get the Pod of that name in `ns`
(one store read), and build the owner reference from its name and UID. -/
def myOwnerRef (ns : String) (hostnameR : Except String String)
    (podGet : Except String Pod) : List Event × Except GoError OwnerReference :=
  match hostnameR with
  | .error msg => ([], .error (.other msg))
  | .ok hostname =>
    match podGet with
    | .error msg => ([Event.getPod ns hostname], .error (.other msg))
    | .ok pod => ([Event.getPod ns hostname], .ok (podOwnerRef pod))

/-- The lock ConfigMap that `Become` builds once, before any store call on
the lock: name, namespace, and the single owner reference. -/
def buildCM (name ns : String) (owner : OwnerReference) : ConfigMap :=
  { apiVersion := "v1", kind := "ConfigMap",
    metadata := { name := name, nspace := ns, ownerReferences := [owner] } }

/-- The self-recognition loop of `Become`: it ranges over the existing
record's owner references and returns as soon as one has a Name equal to
the caller's owner Name (the UID field is not consulted). -/
def selfRecognized (existing : ConfigMap) (owner : OwnerReference) : Bool :=
  existing.metadata.ownerReferences.any fun o => o.name == owner.name

/-- The create loop of `Become`: call Create; on success return nil, on
AlreadyExists sleep one second and call Create again (no re-read), on any
other error return it.  The oracle list supplies one result per call;
`none` means the list ran out while the loop was still going. -/
def createLoop (cm : ConfigMap) : List CreateResult → List Event × Option (Except GoError Unit)
  | [] => ([], none)
  | .created :: _ => ([Event.create cm], some (.ok ()))
  | .alreadyExists :: rest =>
    let r := createLoop cm rest
    (Event.create cm :: Event.sleep 1 :: r.1, r.2)
  | .otherError msg :: _ => ([Event.create cm], some (.error (.other msg)))

/-- `Become`: resolve the namespace, build the clientset, resolve the owner
reference, build the lock ConfigMap, get any existing lock (returning nil
if an existing owner name matches, the error if the get fails other than
NotFound), then run the create loop. -/
def Become (name : String) (env : BecomeEnv) : List Event × Option (Except GoError Unit) :=
  match myNS env.fileRead with
  | .error e => ([], some (.error e))
  | .ok ns =>
    match env.clientset with
    | .error msg => ([], some (.error (.other msg)))
    | .ok () =>
      match myOwnerRef ns env.hostnameR env.podGet with
      | (evs, .error e) => (evs, some (.error e))
      | (evs, .ok owner) =>
        let cm := buildCM name ns owner
        match env.getR with
        | .found existing =>
          if selfRecognized existing owner then
            (evs ++ [Event.getCM ns name], some (.ok ()))
          else
            let r := createLoop cm env.creates
            (evs ++ Event.getCM ns name :: r.1, r.2)
        | .notFound =>
          let r := createLoop cm env.creates
          (evs ++ Event.getCM ns name :: r.1, r.2)
        | .otherError msg => (evs ++ [Event.getCM ns name], some (.error (.other msg)))

/-- `TryBecome`: like `Become`, but a returned error identical to `ErrNoNS`
is converted to nil (leader election disabled). -/
def TryBecome (name : String) (env : BecomeEnv) : List Event × Option (Except GoError Unit) :=
  match Become name env with
  | (evs, some (.error .errNoNS)) => (evs, some (.ok ()))
  | r => r

/-- A standard successful-identity environment used throughout: namespace
file holds `nsRaw`, clientset construction succeeds, hostname resolves, the
Pod get succeeds. -/
def mkEnv (nsRaw hostname : String) (pod : Pod) (getR : GetResult)
    (creates : List CreateResult) : BecomeEnv :=
  { fileRead := .ok nsRaw, clientset := .ok (), hostnameR := .ok hostname,
    podGet := .ok pod, getR := getR, creates := creates }

/-- A trace property: no two create calls are adjacent among the store
operations (i.e. every repeated create has some read between it and the
previous create).  This is the shape the spec's "loop back to step 1"
would impose on traces. -/
def noAdjacentCreates : List Event → Bool
  | e₁ :: e₂ :: rest => (!(e₁.isCreate && e₂.isCreate)) && noAdjacentCreates (e₂ :: rest)
  | _ => true

/-- Shape of `Become` under a successful identity stage, by cases on the
ConfigMap get result. -/
theorem Become_mkEnv (name nsRaw hostname : String) (pod : Pod) (getR : GetResult)
    (creates : List CreateResult) :
    Become name (mkEnv nsRaw hostname pod getR creates) =
      match getR with
      | .found existing =>
        if selfRecognized existing (podOwnerRef pod) then
          ([Event.getPod (trimSpace nsRaw) hostname,
            Event.getCM (trimSpace nsRaw) name], some (.ok ()))
        else
          (Event.getPod (trimSpace nsRaw) hostname :: Event.getCM (trimSpace nsRaw) name ::
            (createLoop (buildCM name (trimSpace nsRaw) (podOwnerRef pod)) creates).1,
            (createLoop (buildCM name (trimSpace nsRaw) (podOwnerRef pod)) creates).2)
      | .notFound =>
        (Event.getPod (trimSpace nsRaw) hostname :: Event.getCM (trimSpace nsRaw) name ::
          (createLoop (buildCM name (trimSpace nsRaw) (podOwnerRef pod)) creates).1,
          (createLoop (buildCM name (trimSpace nsRaw) (podOwnerRef pod)) creates).2)
      | .otherError msg =>
        ([Event.getPod (trimSpace nsRaw) hostname, Event.getCM (trimSpace nsRaw) name],
          some (.error (.other msg))) := by
  cases getR <;> rfl

/-- Running the create loop on `k` conflicts followed by anything: the loop
performs `k` create-then-sleep rounds and continues with the remaining
results, the record passed to each create unchanged. -/
theorem createLoop_replicate_append (cm : ConfigMap) (rs : List CreateResult) :
    ∀ k, createLoop cm (List.replicate k .alreadyExists ++ rs) =
      ((List.replicate k [Event.create cm, Event.sleep 1]).flatten ++ (createLoop cm rs).1,
        (createLoop cm rs).2)
  | 0 => by simp
  | k + 1 => by
    simp only [List.replicate_succ, List.cons_append, createLoop, List.append_eq,
      createLoop_replicate_append cm rs k, List.flatten_cons]
    rfl

/-- Running the create loop on `k` conflicts alone: `k` create-then-sleep
rounds and no terminal outcome (the loop is still going). -/
theorem createLoop_conflicts (cm : ConfigMap) (k : Nat) :
    createLoop cm (List.replicate k .alreadyExists) =
      ((List.replicate k [Event.create cm, Event.sleep 1]).flatten, none) := by
  have h := createLoop_replicate_append cm [] k
  simpa [createLoop] using h

/-- Every event the create loop emits is a create of the fixed record or a
one-second sleep. -/
theorem createLoop_mem (cm : ConfigMap) :
    ∀ (creates : List CreateResult), ∀ e ∈ (createLoop cm creates).1,
      e = Event.create cm ∨ e = Event.sleep 1
  | [], e, he => by simp [createLoop] at he
  | .created :: _, e, he => by
    simp [createLoop] at he
    exact .inl he
  | .alreadyExists :: rest, e, he => by
    simp only [createLoop, List.mem_cons] at he
    rcases he with rfl | rfl | he
    · exact .inl rfl
    · exact .inr rfl
    · exact createLoop_mem cm rest e he
  | .otherError _ :: _, e, he => by
    simp [createLoop] at he
    exact .inl he

/-- The create loop never reads the ConfigMap. -/
theorem createLoop_no_getCM (cm : ConfigMap) (creates : List CreateResult) :
    (createLoop cm creates).1.filter Event.isGetCM = [] := by
  rw [List.filter_eq_nil_iff]
  intro e he
  rcases createLoop_mem cm creates e he with rfl | rfl <;> simp [Event.isGetCM]

/-- Every event any run of `Become` emits is a pod get, a ConfigMap get, a
ConfigMap create, or a one-second sleep. -/
theorem Become_mem (name : String) (env : BecomeEnv) :
    ∀ e ∈ (Become name env).1,
      (∃ a b, e = Event.getPod a b) ∨ (∃ a b, e = Event.getCM a b) ∨
      (∃ cm, e = Event.create cm) ∨ e = Event.sleep 1 := by
  obtain ⟨fr, cs, hr, pg, g, cr⟩ := env
  intro e he
  cases fr with
  | notExist => simp [Become, myNS] at he
  | otherError m => simp [Become, myNS] at he
  | ok contents =>
    cases cs with
    | error m => simp [Become, myNS] at he
    | ok u =>
      cases hr with
      | error m => simp [Become, myNS, myOwnerRef] at he
      | ok hostname =>
        cases pg with
        | error m =>
          simp [Become, myNS, myOwnerRef] at he
          exact .inl ⟨_, _, he⟩
        | ok pod =>
          cases g with
          | found existing =>
            by_cases hrec : selfRecognized existing (podOwnerRef pod)
            · simp [Become, myNS, myOwnerRef, hrec] at he
              rcases he with rfl | rfl
              · exact .inl ⟨_, _, rfl⟩
              · exact .inr (.inl ⟨_, _, rfl⟩)
            · simp [Become, myNS, myOwnerRef, hrec] at he
              rcases he with rfl | rfl | he
              · exact .inl ⟨_, _, rfl⟩
              · exact .inr (.inl ⟨_, _, rfl⟩)
              · rcases createLoop_mem _ _ e he with rfl | rfl
                · exact .inr (.inr (.inl ⟨_, rfl⟩))
                · exact .inr (.inr (.inr rfl))
          | notFound =>
            simp [Become, myNS, myOwnerRef] at he
            rcases he with rfl | rfl | he
            · exact .inl ⟨_, _, rfl⟩
            · exact .inr (.inl ⟨_, _, rfl⟩)
            · rcases createLoop_mem _ _ e he with rfl | rfl
              · exact .inr (.inr (.inl ⟨_, rfl⟩))
              · exact .inr (.inr (.inr rfl))
          | otherError m =>
            simp [Become, myNS, myOwnerRef] at he
            rcases he with rfl | rfl
            · exact .inl ⟨_, _, rfl⟩
            · exact .inr (.inl ⟨_, _, rfl⟩)

/-! Concrete fixtures for counterexamples and witnesses. -/

def podC1 : Pod := ⟨"pod-1", "uid-new"⟩

def ownerOld : OwnerReference :=
  { apiVersion := "v1", kind := "Pod", name := "pod-1", uid := "uid-old" }

def cmC1 : ConfigMap := buildCM "lock" "ns" ownerOld

def envC1 : BecomeEnv := mkEnv "ns" "pod-1" podC1 (.found cmC1) []

def podC2 : Pod := ⟨"pod-2", "u2"⟩

def ownerOther : OwnerReference :=
  { apiVersion := "v1", kind := "Pod", name := "pod-1", uid := "u1" }

def cmOther : ConfigMap := buildCM "lock" "ns" ownerOther

def envC2 : BecomeEnv := mkEnv "ns" "pod-2" podC2 (.found cmOther) [.alreadyExists, .created]

def podW : Pod := ⟨"pw", "uw"⟩

def cmW : ConfigMap := buildCM "lock" "nsw" (podOwnerRef podW)

/-- C1 counterexample: the store holds a lock whose owner has the caller's
pod name but a different UID (`uid-old` vs the caller's `uid-new`); the
claim says this must NOT be recognized as self, yet `Become` recognizes it
and returns success right after the read, with no create issued. -/
theorem C1_counterexample :
    (cmC1.metadata.ownerReferences.map OwnerReference.uid = ["uid-old"]) ∧
    (cmC1.metadata.ownerReferences.map OwnerReference.name = ["pod-1"]) ∧
    podC1.name = "pod-1" ∧ podC1.uid = "uid-new" ∧
    (("uid-new" == "uid-old") = false) ∧
    selfRecognized cmC1 (podOwnerRef podC1) = true ∧
    Become "lock" envC1 =
      ([Event.getPod "ns" "pod-1", Event.getCM "ns" "lock"], some (.ok ())) := by
  decide

/-- C1 (amended): the Self-Recognition Check compares owner names only:
whenever the found record's owner has the caller's pod name — whatever the
two UIDs are — `Become` returns success immediately after the read with
zero creates issued. -/
theorem C1_amended (name nsRaw hostname : String) (pod : Pod) (u av kd : String)
    (creates : List CreateResult) :
    Become name (mkEnv nsRaw hostname pod
        (.found (buildCM name (trimSpace nsRaw)
          { apiVersion := av, kind := kd, name := pod.name, uid := u })) creates) =
      ([Event.getPod (trimSpace nsRaw) hostname, Event.getCM (trimSpace nsRaw) name],
        some (.ok ())) := by
  rw [Become_mkEnv]
  simp [selfRecognized, buildCM, podOwnerRef]

/-- C2 counterexample: after a create attempt returns Conflict, the very
next store operation is another create — there is no intervening read (the
single ConfigMap read of the whole run is the initial one), refuting "loops
back to step 1 (Inspect) and re-reads before the next create attempt". -/
theorem C2_counterexample :
    noAdjacentCreates (storeOps (Become "lock" envC2).1) = false ∧
    (Become "lock" envC2).2 = some (.ok ()) ∧
    ((Become "lock" envC2).1.filter Event.isGetCM).length = 1 ∧
    (createdRecords (Become "lock" envC2).1).length = 2 := by
  decide

/-- Any run of `Become` reads the lock ConfigMap at most once. -/
theorem Become_getCM_count (name : String) (env : BecomeEnv) :
    ((Become name env).1.filter Event.isGetCM).length ≤ 1 := by
  obtain ⟨fr, cs, hr, pg, g, cr⟩ := env
  cases fr with
  | notExist => simp [Become, myNS]
  | otherError m => simp [Become, myNS]
  | ok contents =>
    cases cs with
    | error m => simp [Become, myNS]
    | ok u =>
      cases hr with
      | error m => simp [Become, myNS, myOwnerRef]
      | ok hostname =>
        cases pg with
        | error m => simp [Become, myNS, myOwnerRef, Event.isGetCM]
        | ok pod =>
          cases g with
          | found existing =>
            by_cases hrec : selfRecognized existing (podOwnerRef pod) <;>
              simp [Become, myNS, myOwnerRef, hrec, Event.isGetCM, createLoop_no_getCM]
          | notFound =>
            simp [Become, myNS, myOwnerRef, Event.isGetCM, createLoop_no_getCM]
          | otherError m =>
            simp [Become, myNS, myOwnerRef, Event.isGetCM]

/-- C2 (amended): a Conflict is followed by the backoff sleep and then
directly by the next create of the same, unchanged record: the initial
read is the only ConfigMap read of any run (at most one get event), and
everything the retry loop emits is a create of the fixed record or a
one-second sleep — never a re-read. -/
theorem C2_amended (name : String) (env : BecomeEnv) (cm : ConfigMap)
    (creates : List CreateResult) :
    ((Become name env).1.filter Event.isGetCM).length ≤ 1 ∧
    ((createLoop cm creates).1.all fun e =>
      e == Event.create cm || e == Event.sleep 1) = true := by
  refine ⟨Become_getCM_count name env, ?_⟩
  rw [List.all_eq_true]
  intro e he
  rcases createLoop_mem cm creates e he with rfl | rfl <;> simp

/-- C3: a read failing other than NotFound is returned immediately after
the read (no create ever issued); a create failing other than AlreadyExists
— here after `k` conflicts — is returned at once: the trace ends at that
create, independent of any further oracle results, with no retry. -/
theorem C3_fatal_propagation (name nsRaw hostname msg : String) (pod : Pod) (k : Nat)
    (creates rest : List CreateResult) :
    Become name (mkEnv nsRaw hostname pod (.otherError msg) creates) =
      ([Event.getPod (trimSpace nsRaw) hostname, Event.getCM (trimSpace nsRaw) name],
        some (.error (.other msg))) ∧
    Become name (mkEnv nsRaw hostname pod .notFound
        (List.replicate k .alreadyExists ++ .otherError msg :: rest)) =
      (Event.getPod (trimSpace nsRaw) hostname :: Event.getCM (trimSpace nsRaw) name ::
        ((List.replicate k [Event.create (buildCM name (trimSpace nsRaw) (podOwnerRef pod)),
          Event.sleep 1]).flatten ++
          [Event.create (buildCM name (trimSpace nsRaw) (podOwnerRef pod))]),
        some (.error (.other msg))) := by
  refine ⟨rfl, ?_⟩
  rw [Become_mkEnv]
  simp [createLoop_replicate_append, createLoop]

/-- C4: when the store already holds the lock with the caller's own owner
reference among its owners, `Become` returns success immediately after the
read, with zero create calls issued. -/
theorem C4_restart_idempotence (name nsRaw hostname : String) (pod : Pod)
    (existing : ConfigMap) (creates : List CreateResult)
    (h : podOwnerRef pod ∈ existing.metadata.ownerReferences) :
    Become name (mkEnv nsRaw hostname pod (.found existing) creates) =
      ([Event.getPod (trimSpace nsRaw) hostname, Event.getCM (trimSpace nsRaw) name],
        some (.ok ())) := by
  rw [Become_mkEnv]
  have hrec : selfRecognized existing (podOwnerRef pod) = true := by
    simp only [selfRecognized, List.any_eq_true]
    exact ⟨podOwnerRef pod, h, by simp⟩
  simp [hrec]

/-- C4 witness: a concrete store holding the caller's own lock. -/
theorem C4_witness :
    Become "lock" (mkEnv "nsw" "pw" podW (.found cmW) [.created]) =
      ([Event.getPod "nsw" "pw", Event.getCM "nsw" "lock"], some (.ok ())) :=
  C4_restart_idempotence "lock" "nsw" "pw" podW cmW [.created] (by decide)

/-- C5: when the namespace file does not exist, `Become` returns ErrNoNS
with an empty trace (no store call at all), and `TryBecome` converts
exactly that outcome to success, also without any store call. -/
theorem C5_disabled_mode (name : String) (cs : Except String Unit)
    (hr : Except String String) (pg : Except String Pod) (g : GetResult)
    (cr : List CreateResult) :
    Become name ⟨.notExist, cs, hr, pg, g, cr⟩ = ([], some (.error .errNoNS)) ∧
    TryBecome name ⟨.notExist, cs, hr, pg, g, cr⟩ = ([], some (.ok ())) :=
  ⟨rfl, rfl⟩

/-- C6: against a store with no existing lock (read NotFound) whose create
succeeds, `Become` issues exactly one create — of the lock record built at
the start — and returns success. -/
theorem C6_empty_store (name nsRaw hostname : String) (pod : Pod) :
    Become name (mkEnv nsRaw hostname pod .notFound [.created]) =
      ([Event.getPod (trimSpace nsRaw) hostname, Event.getCM (trimSpace nsRaw) name,
        Event.create (buildCM name (trimSpace nsRaw) (podOwnerRef pod))],
        some (.ok ())) ∧
    createdRecords (Become name (mkEnv nsRaw hostname pod .notFound [.created])).1 =
      [buildCM name (trimSpace nsRaw) (podOwnerRef pod)] :=
  ⟨rfl, rfl⟩

/-- C7: while the lock is held by an owner the caller does not recognize as
itself and every create attempt returns Conflict, `Become` neither returns
success nor an error after any finite number `k` of iterations: the run is
still in the loop, having issued `k` creates, each followed by a one-second
sleep, with no attempt ceiling. -/
theorem C7_blocks_while_held (name nsRaw hostname : String) (pod : Pod)
    (existing : ConfigMap) (k : Nat)
    (h : selfRecognized existing (podOwnerRef pod) = false) :
    Become name (mkEnv nsRaw hostname pod (.found existing)
        (List.replicate k .alreadyExists)) =
      (Event.getPod (trimSpace nsRaw) hostname :: Event.getCM (trimSpace nsRaw) name ::
        (List.replicate k [Event.create (buildCM name (trimSpace nsRaw) (podOwnerRef pod)),
          Event.sleep 1]).flatten, none) := by
  rw [Become_mkEnv]
  simp [h, createLoop_conflicts]

/-- C7 witness: three conflicting iterations against a lock held by another
pod. -/
theorem C7_witness :
    Become "lock" (mkEnv "ns" "pod-2" podC2 (.found cmOther)
        (List.replicate 3 .alreadyExists)) =
      (Event.getPod "ns" "pod-2" :: Event.getCM "ns" "lock" ::
        (List.replicate 3 [Event.create (buildCM "lock" "ns" (podOwnerRef podC2)),
          Event.sleep 1]).flatten, none) :=
  C7_blocks_while_held "lock" "ns" "pod-2" podC2 cmOther 3 (by decide)

/-- C8: the only operations `Become` issues are the pod read, the lock
ConfigMap read, creates of the one lock record built at the start
(unchanged across all retries), and sleeps; and no run of `Become`, under
any oracle whatsoever, ever issues an update or a delete. -/
theorem C8_frame (name nsRaw hostname : String) (pod : Pod) (getR : GetResult)
    (creates : List CreateResult) (envA : BecomeEnv) :
    ((Become name (mkEnv nsRaw hostname pod getR creates)).1.all fun e =>
      e == Event.getPod (trimSpace nsRaw) hostname ||
      e == Event.getCM (trimSpace nsRaw) name ||
      e == Event.create (buildCM name (trimSpace nsRaw) (podOwnerRef pod)) ||
      e == Event.sleep 1) = true ∧
    ((Become name envA).1.all fun e => (!e.isUpdate) && (!e.isDelete)) = true := by
  constructor
  · rw [List.all_eq_true]
    intro e he
    rw [Become_mkEnv] at he
    cases getR with
    | found existing =>
      by_cases hrec : selfRecognized existing (podOwnerRef pod)
      · simp only [hrec, if_true, List.mem_cons, List.mem_singleton,
          List.not_mem_nil, or_false] at he
        rcases he with rfl | rfl <;> simp
      · simp only [hrec, if_false, Bool.false_eq_true, List.mem_cons] at he
        rcases he with rfl | rfl | he
        · simp
        · simp
        · rcases createLoop_mem _ _ e he with rfl | rfl <;> simp
    | notFound =>
      simp only [List.mem_cons] at he
      rcases he with rfl | rfl | he
      · simp
      · simp
      · rcases createLoop_mem _ _ e he with rfl | rfl <;> simp
    | otherError m =>
      simp only [List.mem_cons, List.mem_singleton, List.not_mem_nil, or_false] at he
      rcases he with rfl | rfl <;> simp
  · rw [List.all_eq_true]
    intro e he
    rcases Become_mem name envA e he with ⟨a, b, rfl⟩ | ⟨a, b, rfl⟩ | ⟨cm, rfl⟩ | rfl <;>
      simp [Event.isUpdate, Event.isDelete]

/-- C9: the self-recognition step scans the found record's owner references
for one whose name equals the caller's pod name: if any matches, `Become`
returns success right after the read with no create; otherwise — including
a record with zero owner references — it proceeds to the create loop. -/
theorem C9_owner_scan (name nsRaw hostname : String) (pod : Pod)
    (existing : ConfigMap) (creates : List CreateResult) :
    Become name (mkEnv nsRaw hostname pod (.found existing) creates) =
      (if existing.metadata.ownerReferences.any (fun o => o.name == pod.name) then
        ([Event.getPod (trimSpace nsRaw) hostname, Event.getCM (trimSpace nsRaw) name],
          some (.ok ()))
      else
        (Event.getPod (trimSpace nsRaw) hostname :: Event.getCM (trimSpace nsRaw) name ::
          (createLoop (buildCM name (trimSpace nsRaw) (podOwnerRef pod)) creates).1,
          (createLoop (buildCM name (trimSpace nsRaw) (podOwnerRef pod)) creates).2)) := by
  rw [Become_mkEnv]
  rfl

/-- C10: `myNS` yields the distinguished ErrNoNS exactly on the
file-not-exist outcome, propagates any other read error unchanged (wrapped
as a plain Go error with the same message), and on success returns the file
contents with surrounding whitespace trimmed. -/
theorem C10_myNS_classification (m s : String) (r : FileReadResult) :
    myNS .notExist = .error .errNoNS ∧
    myNS (.otherError m) = .error (.other m) ∧
    myNS (.ok s) = .ok (trimSpace s) ∧
    (decide (myNS r = Except.error GoError.errNoNS) = decide (r = FileReadResult.notExist)) ∧
    myNS (.ok " \t my-namespace\n") = .ok "my-namespace" := by
  refine ⟨rfl, rfl, rfl, ?_, by decide⟩
  simp only [decide_eq_decide]
  cases r <;> simp [myNS]
